import Mathlib

/-!
Model of the Jira DC → Cloud status-transition reconciliation script
(`api_main_v1.5.py`), together with proofs about its behaviour.

HTTP traffic is abstracted: a remote endpoint is a function from the request
parameters the script varies (API version, pagination offset, issue key) to
the response the script inspects (status code plus the JSON fields it reads).
A call that raises `requests.exceptions.RequestException` is a distinguished
outcome.  Unbounded `while True` pagination loops are given explicit fuel; a
run that exhausts its fuel is reported as `diverge`, so a loop that diverges
for every fuel value runs forever.
-/

namespace SBSA

/-! ### `_request_with_retries` (lines 42-102) -/

/-- What one attempt of `requests.request` produces: a transport-level
exception or an HTTP response with a status code. -/
inductive AttemptOutcome where
  | transport
  | response (status : Nat)
deriving DecidableEq

/-- How `_request_with_retries` ends: re-raising the transport exception,
returning a response, or the dead fall-through (`max_retries = 0`) that
returns `last_resp = None`. -/
inductive RetryResult where
  | raised
  | returned (status : Nat)
  | noResponse
deriving DecidableEq

/-- `resp.status_code == 429 or 500 <= resp.status_code < 600` (line 78). -/
def isRetryStatus (s : Nat) : Bool :=
  s == 429 || (500 ≤ s && s < 600)

/-- An attempt outcome on which the loop retries: a transport error or a
response whose status is 429/5xx. -/
def retriesOn : AttemptOutcome → Bool
  | .transport => true
  | .response s => isRetryStatus s

/-- The `for attempt in range(1, max_retries + 1)` loop of
`_request_with_retries`.  `oc attempt` is what the request does on that
attempt; the result is paired with the list of sleep durations
(`backoff_factor * attempt`, line 85/98) performed between attempts. -/
def retryAux (oc : Nat → AttemptOutcome) (b maxR : Nat) :
    Nat → Nat → RetryResult × List Nat
  | _, 0 => (.noResponse, [])
  | attempt, fuel + 1 =>
    match oc attempt with
    | .transport =>
      if attempt = maxR then (.raised, [])
      else
        let r := retryAux oc b maxR (attempt + 1) fuel
        (r.1, b * attempt :: r.2)
    | .response s =>
      if isRetryStatus s then
        if attempt = maxR then (.returned s, [])
        else
          let r := retryAux oc b maxR (attempt + 1) fuel
          (r.1, b * attempt :: r.2)
      else (.returned s, [])

/-- `_request_with_retries` with attempt ceiling `maxR` and backoff factor
`b`; the source defaults are `max_retries = 3`, `backoff_factor = 2`. -/
def requestWithRetries (oc : Nat → AttemptOutcome) (maxR b : Nat) :
    RetryResult × List Nat :=
  retryAux oc b maxR 1 maxR

/-! ### `dc_list_projects` (lines 134-157) -/

/-- One entry of the project-list JSON body, with the three fields the parser
reads.  `id` is `none` when missing/null and `some ""` when falsy-but-present,
matching `str(p.get("id") or "")`. -/
structure RawProject where
  key : Option String
  id : Option String
  name : Option String
deriving DecidableEq

/-- A parsed project record `{'key': ..., 'id': ..., 'name': ...}`. -/
structure Project where
  key : String
  id : String
  name : String
deriving DecidableEq

/-- Python truthiness of an optional string: `None` and `""` are falsy. -/
def strTruthy : Option String → Bool
  | none => false
  | some s => s ≠ ""

/-- The body of the parsing loop of `dc_list_projects` (lines 146-151):
`pid = str(p.get("id") or "")`, `name = p.get("name") or key`, and entries
failing `if key and pid` are dropped. -/
def parseProjects : List RawProject → List Project
  | [] => []
  | p :: rest =>
    let pid := match p.id with
      | none => ""
      | some s => s
    match p.key with
    | none => parseProjects rest
    | some k =>
      if k ≠ "" ∧ pid ≠ "" then
        let nm := match p.name with
          | none => k
          | some n => if n ≠ "" then n else k
        ⟨k, pid, nm⟩ :: parseProjects rest
      else parseProjects rest

/-- A response of the DC project-list endpoint: status code and parsed body. -/
structure DCListResp where
  status : Nat
  body : List RawProject

/-- How `dc_list_projects` ends: a project list, or the fatal `RuntimeError`
carrying the last response's status. -/
inductive ListProjectsResult where
  | ok (projects : List Project)
  | fatal (lastStatus : Nat)
deriving DecidableEq

/-- `dc_list_projects`: `for ver in ("2", "3")` tries version "2" first, then
version "3"; the first 200 wins, and if neither answers 200 a `RuntimeError`
is raised with the last response's status. -/
def dc_list_projects (srv : String → DCListResp) : ListProjectsResult :=
  let r2 := srv "2"
  if r2.status = 200 then .ok (parseProjects r2.body)
  else
    let r3 := srv "3"
    if r3.status = 200 then .ok (parseProjects r3.body)
    else .fatal r3.status

/-- Modelled from the spec: "Tries API variants in a fixed preference order
(newest first)" — the same function trying the newer variant "3" before "2".
Stated only to compare against the source's `dc_list_projects`. -/
def dc_list_projects_newest_first (srv : String → DCListResp) :
    ListProjectsResult :=
  let r3 := srv "3"
  if r3.status = 200 then .ok (parseProjects r3.body)
  else
    let r2 := srv "2"
    if r2.status = 200 then .ok (parseProjects r2.body)
    else .fatal r2.status

/-! ### `dc_search_issue_keys_for_project` (lines 160-206) -/

/-- A page of the DC `/search` endpoint: status code, the issue keys of
`payload["issues"]`, and the reported `total` (absent models a payload with
no `total` key, read as `payload.get("total", 0)`). -/
structure SearchPage where
  status : Nat
  issues : List String
  total : Option Nat

/-- How the search ends: the accumulated keys, the `RuntimeError` raised on a
non-200 page, or fuel exhaustion (the loop still running). -/
inductive SearchResult where
  | ok (keys : List String)
  | err (status : Nat)
  | diverge
deriving DecidableEq

/-- The `while True` pagination loop of `dc_search_issue_keys_for_project`:
raise on non-200, stop on an empty page, else extend `keys`, advance
`start_at` by the page length and stop once `start_at >= total`. -/
def dcSearchAux (srv : Nat → SearchPage) : Nat → Nat → List String → SearchResult
  | 0, _, _ => .diverge
  | fuel + 1, startAt, keys =>
    let page := srv startAt
    if page.status ≠ 200 then .err page.status
    else if page.issues.isEmpty then .ok keys
    else
      let keys2 := keys ++ page.issues
      let total := page.total.getD 0
      let startAt2 := startAt + page.issues.length
      if total ≤ startAt2 then .ok keys2
      else dcSearchAux srv fuel startAt2 keys2

/-- `dc_search_issue_keys_for_project`, starting at offset 0 with no keys. -/
def dc_search_issue_keys (srv : Nat → SearchPage) (fuel : Nat) : SearchResult :=
  dcSearchAux srv fuel 0 []

/-- The source feed of the pagination property: five issue keys reported with
`total = 5`, served in pages of size 2 from the requested offset. -/
def feedKeys : List String := ["A-1", "A-2", "A-3", "A-4", "A-5"]

/-- The simulated server for that feed. -/
def feed5 : Nat → SearchPage := fun startAt =>
  { status := 200, issues := (feedKeys.drop startAt).take 2, total := some 5 }

/-- A well-formed source feed over an arbitrary key list: serves the suffix
of `ks` at the requested offset in pages of size `psz`, reporting
`total = ks.length`. -/
def listFeed (ks : List String) (psz : Nat) : Nat → SearchPage :=
  fun startAt =>
    { status := 200, issues := (ks.drop startAt).take psz
      total := some ks.length }

/-! ### `cloud_project_exists` (lines 282-307) -/

/-- What one `cloud_get` of `/rest/api/3/project/{identifier}` does: raise a
`RequestException` or return a response with a status code. -/
inductive LookupOutcome where
  | exc
  | resp (status : Nat)
deriving DecidableEq

/-- `cloud_project_exists`: `for identifier in (project_key, project_id)` —
200 yields `True`, 404 falls through to the next identifier, any other status
or a transport exception yields `False`, and exhausting both identifiers
yields `False`. -/
def cloud_project_exists (lookup : String → LookupOutcome)
    (project_key project_id : String) : Bool :=
  match lookup project_key with
  | .exc => false
  | .resp s =>
    if s = 200 then true
    else if s = 404 then
      match lookup project_id with
      | .exc => false
      | .resp s2 =>
        if s2 = 200 then true
        else if s2 = 404 then false
        else false
    else false

/-! ### `cloud_fetch_status_pairs` (lines 310-353) -/

/-- A changelog item, with the fields the script reads:
`field`, `fromString`, `toString`. -/
structure CLItem where
  field : String
  fromString : Option String
  toString : Option String
deriving DecidableEq

/-- A (from-name, to-name) pair as stored in the Python `set`. -/
abbrev StatusPair := Option String × Option String

/-- One page of the Cloud changelog endpoint: status code, the optional
`values` and `histories` arrays (each history reduced to its `items`), the
optional `total` counter and the optional `isLast` flag. -/
structure CLPage where
  status : Nat
  values : Option (List (List CLItem))
  histories : Option (List (List CLItem))
  total : Option Nat
  isLast : Option Bool

/-- `payload.get("values") or payload.get("histories") or []`: Python `or`
falls through on `None` and on an empty list. -/
def pageHistories (page : CLPage) : List (List CLItem) :=
  match page.values with
  | some (h :: t) => h :: t
  | _ =>
    match page.histories with
    | some (h :: t) => h :: t
    | _ => []

/-- The inner loop of lines 334-339: add `(fromString, toString)` of every
item whose `field` is `"status"` to the accumulated set. -/
def addStatusPairs : List CLItem → Finset StatusPair → Finset StatusPair
  | [], acc => acc
  | it :: rest, acc =>
    addStatusPairs rest
      (if it.field = "status" then insert (it.fromString, it.toString) acc else acc)

/-- The outer loop of lines 334-339 over all histories of a page. -/
def pagePairs : List (List CLItem) → Finset StatusPair → Finset StatusPair
  | [], acc => acc
  | h :: rest, acc => pagePairs rest (addStatusPairs h acc)

/-- How the pair fetch ends: the pair set, the `RuntimeError` on a non-200
page, or fuel exhaustion (the loop still running). -/
inductive CloudFetchResult where
  | ok (pairs : Finset StatusPair)
  | err (status : Nat)
  | diverge
deriving DecidableEq

/-- The `while True` pagination loop of `cloud_fetch_status_pairs`: raise on
non-200; accumulate the page's status pairs; advance `start_at` by the page
length; then stop once `start_at >= total` when `total` is present, else stop
on an empty page or on `payload.get("isLast", True)`. -/
def cloudFetchAux (srv : Nat → CLPage) :
    Nat → Nat → Finset StatusPair → CloudFetchResult
  | 0, _, _ => .diverge
  | fuel + 1, startAt, pairs =>
    let page := srv startAt
    if page.status ≠ 200 then .err page.status
    else
      let hists := pageHistories page
      let pairs2 := pagePairs hists pairs
      let startAt2 := startAt + hists.length
      match page.total with
      | some total =>
        if total ≤ startAt2 then .ok pairs2
        else cloudFetchAux srv fuel startAt2 pairs2
      | none =>
        if hists.isEmpty || page.isLast.getD true then .ok pairs2
        else cloudFetchAux srv fuel startAt2 pairs2

/-- `cloud_fetch_status_pairs`, starting at offset 0 with an empty set. -/
def cloud_fetch_status_pairs (srv : Nat → CLPage) (fuel : Nat) :
    CloudFetchResult :=
  cloudFetchAux srv fuel 0 ∅

/-- The fetch runs forever: every fuel bound is exhausted. -/
def fetchDiverges (srv : Nat → CLPage) : Prop :=
  ∀ fuel, cloud_fetch_status_pairs srv fuel = .diverge

/-- A server whose every page is empty yet reports `total = 1`: the empty-page
guard of line 350 is never consulted because `total` is present, and
`start_at` never advances. -/
def totalStallSrv : Nat → CLPage := fun _ =>
  { status := 200, values := none, histories := none
    total := some 1, isLast := none }

/-! ### `process_project` (lines 379-500) -/

/-- One event yielded by `dc_iter_status_changes` (lines 261-276): the DC
issue id, the from/to status names and ids, author, timestamp and the history
(changegroup) id — the yield sets `changegroup_Id` and `changeitem_Id` to the
same `history_id`, so one field carries both. -/
structure DCChange where
  dcIssueId : String
  fromName : Option String
  fromId : Option String
  toName : Option String
  toId : Option String
  author : String
  timestamp : String
  changegroupId : String
deriving DecidableEq

/-- One row of `missing_rows` (lines 475-486). -/
structure DriftRow where
  issueKey : String
  dc_issue_id : String
  cloud_issue_id : String
  transition : String
  from_status : String
  to_status : String
  author : String
  timestamp : String
  changegroup_Id : String
  changeitem_Id : String
deriving DecidableEq

/-- The remote world one `process_project` call interacts with:
`cloudProjectLookup` backs `cloud_project_exists`; `searchResult` is what
`dc_search_issue_keys_for_project` produces (`.error` = it raised);
`dcChanges` is the list `dc_iter_status_changes` would yield for an issue
(`.error` = it raised before yielding — its only failure mode, a fetch
error); `cloudPairs` and `cloudIssueId` are `cloud_fetch_status_pairs` and
`cloud_get_issue_id` (`.error` = raised). -/
structure Env where
  cloudProjectLookup : String → LookupOutcome
  searchResult : Except Unit (List String)
  dcChanges : String → Except Unit (List DCChange)
  cloudPairs : String → Except Unit (Finset StatusPair)
  cloudIssueId : String → Except Unit String

/-- The filter of lines 413-416: keep a change only when both status names
are truthy. -/
def keepChange (c : DCChange) : Bool :=
  strTruthy c.fromName && strTruthy c.toName

/-- The `(f_name, t_name)` match key of the comparison (line 488): the status
names of a change, and nothing else. -/
def changeNames (c : DCChange) : StatusPair :=
  (c.fromName, c.toName)

/-- `key in dc_transitions_by_issue` for the insertion-ordered dict modelled
as an association list. -/
def hasKey : List (String × List DCChange) → String → Bool
  | [], _ => false
  | (j, _) :: rest, k => j == k || hasKey rest k

/-- Appending changes for `k` to the `defaultdict(list)`: extend the existing
entry, or create one at the end on first append. -/
def dictAppend (dict : List (String × List DCChange)) (k : String)
    (ts : List DCChange) : List (String × List DCChange) :=
  if hasKey dict k then
    dict.map fun p => if p.1 = k then (p.1, p.2 ++ ts) else p
  else dict ++ [(k, ts)]

/-- The DC-changelog loop of lines 410-425: per issue key, collect the kept
changes into `dc_transitions_by_issue`, skipping an issue whose fetch
raised. -/
def buildDCDictAux (env : Env) :
    List String → List (String × List DCChange) → List (String × List DCChange)
  | [], acc => acc
  | j :: rest, acc =>
    match env.dcChanges j with
    | .error _ => buildDCDictAux env rest acc
    | .ok cs =>
      let kept := cs.filter keepChange
      if kept.isEmpty then buildDCDictAux env rest acc
      else buildDCDictAux env rest (dictAppend acc j kept)

/-- `dc_transitions_by_issue` for the given issue keys. -/
def buildDCDict (env : Env) (keys : List String) :
    List (String × List DCChange) :=
  buildDCDictAux env keys []

/-- `dc_issue_id_map.get(key, "")`: the `dcIssueId` of the first kept change
of the issue, `""` when the issue has none (lines 418-419, 477). -/
def dcIssueIdOf (env : Env) (k : String) : String :=
  match env.dcChanges k with
  | .error _ => ""
  | .ok cs =>
    match cs.filter keepChange with
    | [] => ""
    | c :: _ => c.dcIssueId

/-- `cloud_cache[key]` after the Cloud loop of lines 439-453: the pair set
when both Cloud calls succeeded, `None` when either raised. -/
def cloudCacheOf (env : Env) (k : String) : Option (Finset StatusPair) :=
  match env.cloudPairs k with
  | .error _ => none
  | .ok ps =>
    match env.cloudIssueId k with
    | .error _ => none
    | .ok _ => some ps

/-- `cloud_issue_id_map.get(key, "")` after the Cloud loop: the fetched id
when both Cloud calls succeeded, `""` otherwise (line 453). -/
def cloudIdOf (env : Env) (k : String) : String :=
  match env.cloudPairs k with
  | .error _ => ""
  | .ok _ =>
    match env.cloudIssueId k with
    | .error _ => ""
    | .ok i => i

/-- Python `str` / f-string interpolation of an optional string. -/
def pyStr : Option String → String
  | none => "None"
  | some s => s

/-- The row built at lines 475-486 for one change of one issue. -/
def rowOf (env : Env) (k : String) (c : DCChange) : DriftRow :=
  { issueKey := k
    dc_issue_id := dcIssueIdOf env k
    cloud_issue_id := cloudIdOf env k
    transition := pyStr c.fromName ++ " → " ++ pyStr c.toName
    from_status := pyStr c.fromName ++ " (" ++ pyStr c.fromId ++ ")"
    to_status := pyStr c.toName ++ " (" ++ pyStr c.toId ++ ")"
    author := c.author
    timestamp := c.timestamp
    changegroup_Id := c.changegroupId
    changeitem_Id := c.changegroupId }

/-- The comparison body of lines 461-489 for one issue: skip it when the
Cloud cache holds `None`, else emit one row per change whose
`(f_name, t_name)` pair is not in the cached pair set. -/
def issueRows (env : Env) (k : String) (entries : List DCChange) :
    List DriftRow :=
  match cloudCacheOf env k with
  | none => []
  | some cloudPairs =>
    entries.filterMap fun c =>
      if (c.fromName, c.toName) ∈ cloudPairs then none
      else some (rowOf env k c)

/-- The comparison loop of lines 458-489 over the transition dict. -/
def compareRows (env : Env) : List (String × List DCChange) → List DriftRow
  | [] => []
  | (k, es) :: rest => issueRows env k es ++ compareRows env rest

/-- `process_project`: the value of the rows list passed to `write_csv` —
`[]` stands for the empty report with headers only.  Mirrors the early
returns on an absent Cloud project, no issue keys, and no DC transitions,
and the outer `except` (lines 497-500) that catches the search's
`RuntimeError` and writes the empty report. -/
def process_project (env : Env) (project_key project_id : String) :
    List DriftRow :=
  if cloud_project_exists env.cloudProjectLookup project_key project_id then
    match env.searchResult with
    | .error _ => []
    | .ok issue_keys =>
      if issue_keys.isEmpty then []
      else
        let dict := buildDCDict env issue_keys
        if dict.isEmpty then []
        else compareRows env dict
  else []

/-- The environment with the DC changelog fetch for issue `k` replaced by a
raised exception. -/
def setDCError (env : Env) (k : String) : Env :=
  { env with dcChanges := fun j => if j = k then .error () else env.dcChanges j }

/-- The environment with the Cloud pair fetch for issue `k` replaced by a
raised exception. -/
def setCloudError (env : Env) (k : String) : Env :=
  { env with cloudPairs := fun j => if j = k then .error () else env.cloudPairs j }

/-- The environment with the DC issue-key search replaced by a raised
exception. -/
def setSearchError (env : Env) : Env :=
  { env with searchResult := .error () }

/-! ### `main` (lines 531-583): per-project loop and resume point -/

/-- The `for p in projects[start_index:]` loop: every project is processed
and contributes its report. -/
def runProjects (envOf : Project → Env) (projects : List Project) :
    List (String × List DriftRow) :=
  projects.map fun p => (p.key, process_project (envOf p) p.key p.id)

/-- ASCII case of Python `str.upper` on one character. -/
def upperChar (c : Char) : Char :=
  if c.isLower then Char.ofNat (c.toNat - 32) else c

/-- Python `str.upper()` for the ASCII project keys the script compares. -/
def pyUpper (s : String) : String :=
  ⟨s.data.map upperChar⟩

/-- The `for i, p in enumerate(projects)` scan of lines 568-571: the first
index whose upper-cased key equals the upper-cased resume key. -/
def findResume (rku : String) : List Project → Option Nat
  | [] => none
  | p :: rest =>
    if (pyUpper p.key) = rku then some 0
    else (findResume rku rest).map (· + 1)

/-- `start_index`: 0 without a resume key, and 0 again when the resume key
matches no project (lines 565-576). -/
def resumeIndex (projects : List Project) (resume_from : Option String) : Nat :=
  match resume_from with
  | none => 0
  | some rk => (findResume (pyUpper rk) projects).getD 0

/-- The whole run after project discovery and the allow-list filter:
process `projects[start_index:]`. -/
def runFrom (envOf : Project → Env) (projects : List Project)
    (resume_from : Option String) : List (String × List DriftRow) :=
  runProjects envOf (projects.drop (resumeIndex projects resume_from))

/-! ### Concrete scenarios -/

/-- A source transition Open → Done. -/
def changeOpenDone : DCChange :=
  { dcIssueId := "500", fromName := some "Open", fromId := some "1"
    toName := some "Done", toId := some "6", author := "Alice"
    timestamp := "2024-01-01T00:00:00", changegroupId := "900" }

/-- A source transition Open → In Progress. -/
def changeOpenProg : DCChange :=
  { dcIssueId := "500", fromName := some "Open", fromId := some "1"
    toName := some "In Progress", toId := some "3", author := "Alice"
    timestamp := "2024-01-02T00:00:00", changegroupId := "901" }

/-- The target pair set holding only (Open, Done). -/
def pairsW : Finset StatusPair := {(some "Open", some "Done")}

/-- Both source transitions of issue K-1. -/
def entriesW : List DCChange := [changeOpenDone, changeOpenProg]

/-- A world where the project exists, K-1 has two source transitions, and
both Cloud calls succeed: (Open, Done) is recorded on the target,
(Open, In Progress) is not. -/
def envC2w : Env :=
  { cloudProjectLookup := fun _ => .resp 200
    searchResult := .ok ["K-1"]
    dcChanges := fun _ => .ok entriesW
    cloudPairs := fun _ => .ok pairsW
    cloudIssueId := fun _ => .ok "700" }

/-- A world where the Cloud pair fetch raises for every issue. -/
def envC1 : Env :=
  { cloudProjectLookup := fun _ => .resp 200
    searchResult := .ok ["K-1"]
    dcChanges := fun _ => .ok [changeOpenDone]
    cloudPairs := fun _ => .error ()
    cloudIssueId := fun _ => .ok "700" }

/-- A world where the pair fetch for K-1 succeeds (with an empty pair set)
but the subsequent `cloud_get_issue_id` raises. -/
def envC2cx : Env :=
  { cloudProjectLookup := fun _ => .resp 200
    searchResult := .ok ["K-1"]
    dcChanges := fun _ => .ok [changeOpenDone]
    cloudPairs := fun _ => .ok ∅
    cloudIssueId := fun _ => .error () }

/-- A world with nothing in it: project absent, no issues, every per-issue
call raising. -/
def envEmpty : Env :=
  { cloudProjectLookup := fun _ => .resp 404
    searchResult := .ok []
    dcChanges := fun _ => .error ()
    cloudPairs := fun _ => .error ()
    cloudIssueId := fun _ => .error () }

/-- Three discovered projects with distinct keys. -/
def projW : List Project :=
  [⟨"ALPHA", "1", "Alpha"⟩, ⟨"BETA", "2", "Beta"⟩, ⟨"GAMMA", "3", "Gamma"⟩]

/-- Per-project worlds for the resume scenario. -/
def envOfW : Project → Env := fun _ => envEmpty

/-- A discovery server where both API variants answer 200 with different
bodies: variant "2" lists project AAA, variant "3" lists project BBB. -/
def cxListSrv : String → DCListResp := fun v =>
  if v = "3" then ⟨200, [⟨some "BBB", some "2", some "Beta"⟩]⟩
  else ⟨200, [⟨some "AAA", some "1", some "Alpha"⟩]⟩

/-- A changelog server whose page at offset 0 has one status item and
neither `total` nor `isLast`, while every later offset would serve a page
with a different status item. -/
def twoPageSrv : Nat → CLPage := fun s =>
  if s = 0 then
    { status := 200
      values := some [[⟨"status", some "Open", some "Done"⟩]]
      histories := none, total := none, isLast := none }
  else
    { status := 200
      values := some [[⟨"status", some "Open", some "In Progress"⟩]]
      histories := none, total := none, isLast := none }

/-! ## Theorems -/

/-- One unfolding of the pagination loop on a 200 page. -/
theorem cloudFetchAux_step (srv : Nat → CLPage) (fuel startAt : Nat)
    (acc : Finset StatusPair) (h200 : (srv startAt).status = 200) :
    cloudFetchAux srv (fuel + 1) startAt acc =
      (match (srv startAt).total with
       | some total =>
         if total ≤ startAt + (pageHistories (srv startAt)).length then
           .ok (pagePairs (pageHistories (srv startAt)) acc)
         else
           cloudFetchAux srv fuel (startAt + (pageHistories (srv startAt)).length)
             (pagePairs (pageHistories (srv startAt)) acc)
       | none =>
         if (pageHistories (srv startAt)).isEmpty || (srv startAt).isLast.getD true then
           .ok (pagePairs (pageHistories (srv startAt)) acc)
         else
           cloudFetchAux srv fuel (startAt + (pageHistories (srv startAt)).length)
             (pagePairs (pageHistories (srv startAt)) acc)) := by
  conv_lhs => rw [cloudFetchAux]
  simp [h200]

/-- On `totalStallSrv` the loop never leaves offset 0: every fuel bound is
exhausted. -/
theorem totalStall_aux (fuel : Nat) :
    ∀ acc, cloudFetchAux totalStallSrv fuel 0 acc = .diverge := by
  induction fuel with
  | zero => intro acc; rfl
  | succ n ih =>
    intro acc
    rw [cloudFetchAux_step totalStallSrv n 0 acc rfl]
    simpa [totalStallSrv, pageHistories, pagePairs] using ih acc

/-- When every page reports the same `total` and is non-empty below it, the
loop reaches the total and stops. -/
theorem cloudFetchAux_total_term (srv : Nat → CLPage) (T : Nat)
    (h200 : ∀ s, (srv s).status = 200)
    (htot : ∀ s, (srv s).total = some T)
    (hne : ∀ s, s < T → pageHistories (srv s) ≠ []) :
    ∀ fuel startAt acc, T ≤ startAt + fuel →
      ∃ ps, cloudFetchAux srv (fuel + 1) startAt acc = .ok ps := by
  intro fuel
  induction fuel with
  | zero =>
    intro startAt acc hT
    refine ⟨pagePairs (pageHistories (srv startAt)) acc, ?_⟩
    rw [cloudFetchAux_step srv 0 startAt acc (h200 startAt), htot startAt]
    have hle : T ≤ startAt + (pageHistories (srv startAt)).length :=
      le_trans (by simpa using hT) (Nat.le_add_right _ _)
    simp [hle]
  | succ n ih =>
    intro startAt acc hT
    by_cases hstop : T ≤ startAt + (pageHistories (srv startAt)).length
    · refine ⟨pagePairs (pageHistories (srv startAt)) acc, ?_⟩
      rw [cloudFetchAux_step srv (n + 1) startAt acc (h200 startAt), htot startAt]
      simp [hstop]
    · have hlt : startAt < T := by
        by_contra hge
        exact hstop (le_trans (Nat.le_of_not_lt hge) (Nat.le_add_right _ _))
      have hnil := hne startAt hlt
      have hlen : 1 ≤ (pageHistories (srv startAt)).length :=
        Nat.succ_le_of_lt (List.length_pos.mpr hnil)
      have hT2 : T ≤ (startAt + (pageHistories (srv startAt)).length) + n := by
        omega
      obtain ⟨ps, hps⟩ := ih (startAt + (pageHistories (srv startAt)).length)
        (pagePairs (pageHistories (srv startAt)) acc) hT2
      refine ⟨ps, ?_⟩
      rw [cloudFetchAux_step srv (n + 1) startAt acc (h200 startAt), htot startAt]
      simp [hstop, hps]

/-- C5: `_request_with_retries` with the default attempt ceiling of 3 retries
on transport exceptions and on 429/5xx responses, sleeping
`backoff_factor * attempt` (linear) between attempts; exhausting the attempts
on a transport error re-raises, exhausting them on a retryable HTTP status
returns that last failing response, and a non-retryable response is returned
at once without any retry or sleep. -/
theorem request_with_retries_behaviour (b : Nat) (oc : Nat → AttemptOutcome) :
    (retriesOn (oc 1) = true → retriesOn (oc 2) = true →
      oc 3 = .transport →
      requestWithRetries oc 3 b = (.raised, [b * 1, b * 2]))
    ∧ (∀ s, retriesOn (oc 1) = true → retriesOn (oc 2) = true →
      isRetryStatus s = true → oc 3 = .response s →
      requestWithRetries oc 3 b = (.returned s, [b * 1, b * 2]))
    ∧ (∀ s, isRetryStatus s = false → oc 1 = .response s →
      requestWithRetries oc 3 b = (.returned s, [])) := by
  have aux1 : retriesOn (oc 1) = true →
      retryAux oc b 3 1 3
        = ((retryAux oc b 3 2 2).1, b * 1 :: (retryAux oc b 3 2 2).2) := by
    intro h1
    cases hc : oc 1 with
    | transport =>
      conv_lhs => rw [retryAux, hc]
      rfl
    | response s =>
      have hs : isRetryStatus s = true := by rw [hc] at h1; exact h1
      conv_lhs => rw [retryAux, hc]
      simp [hs]
  have aux2 : retriesOn (oc 2) = true →
      retryAux oc b 3 2 2
        = ((retryAux oc b 3 3 1).1, b * 2 :: (retryAux oc b 3 3 1).2) := by
    intro h2
    cases hc : oc 2 with
    | transport =>
      conv_lhs => rw [retryAux, hc]
      rfl
    | response s =>
      have hs : isRetryStatus s = true := by rw [hc] at h2; exact h2
      conv_lhs => rw [retryAux, hc]
      simp [hs]
  refine ⟨?_, ?_, ?_⟩
  · intro h1 h2 h3
    have last : retryAux oc b 3 3 1 = (.raised, []) := by
      rw [retryAux, h3]
      rfl
    rw [requestWithRetries, aux1 h1, aux2 h2, last]
  · intro s h1 h2 hs h3
    have last : retryAux oc b 3 3 1 = (.returned s, []) := by
      rw [retryAux, h3]; simp [hs]
    rw [requestWithRetries, aux1 h1, aux2 h2, last]
  · intro s hs h1
    rw [requestWithRetries, retryAux, h1]
    simp [hs]

/-- C6: `cloud_project_exists` looks the project up by key and then by id:
200 on the key yields true at once; 404 on the key does not short-circuit —
the id is tried, 200 there yields true and 404 there concludes absence; a
transport exception or any other status on either lookup yields false; and a
project concluded absent makes `process_project` write the empty headers-only
report. -/
theorem cloud_project_exists_behaviour (lu : String → LookupOutcome)
    (env : Env) (pk pid : String) :
    (lu pk = .resp 200 → cloud_project_exists lu pk pid = true)
    ∧ (lu pk = .resp 404 → lu pid = .resp 200 →
        cloud_project_exists lu pk pid = true)
    ∧ (lu pk = .resp 404 → lu pid = .resp 404 →
        cloud_project_exists lu pk pid = false)
    ∧ (lu pk = .exc → cloud_project_exists lu pk pid = false)
    ∧ (∀ s, s ≠ 200 → s ≠ 404 → lu pk = .resp s →
        cloud_project_exists lu pk pid = false)
    ∧ (lu pk = .resp 404 → lu pid = .exc →
        cloud_project_exists lu pk pid = false)
    ∧ (∀ s, s ≠ 200 → s ≠ 404 → lu pk = .resp 404 → lu pid = .resp s →
        cloud_project_exists lu pk pid = false)
    ∧ (cloud_project_exists env.cloudProjectLookup pk pid = false →
        process_project env pk pid = []) := by
  refine ⟨?_, ?_, ?_, ?_, ?_, ?_, ?_, ?_⟩
  · intro h; simp [cloud_project_exists, h]
  · intro h h2; simp [cloud_project_exists, h, h2]
  · intro h h2; simp [cloud_project_exists, h, h2]
  · intro h; simp [cloud_project_exists, h]
  · intro s hs200 hs404 h; simp [cloud_project_exists, h, hs200, hs404]
  · intro h h2; simp [cloud_project_exists, h, h2]
  · intro s hs200 hs404 h h2
    simp [cloud_project_exists, h, h2, hs200, hs404]
  · intro h; simp [process_project, h]

/-- C7 counterexample: the source tries API variant "2" before "3", so on a
server where both variants answer 200 with different bodies it returns
variant 2's projects — not what a newest-first preference order would
return. -/
theorem dc_list_projects_tries_v2_first :
    dc_list_projects cxListSrv = .ok [⟨"AAA", "1", "Alpha"⟩]
    ∧ dc_list_projects_newest_first cxListSrv = .ok [⟨"BBB", "2", "Beta"⟩]
    ∧ dc_list_projects cxListSrv ≠ dc_list_projects_newest_first cxListSrv := by
  refine ⟨by decide, by decide, by decide⟩

/-- C7 (amended): `dc_list_projects` tries the discovery endpoint's API
variants in the fixed order version "2" then version "3" (oldest first); the
first variant answering 200 wins and its body is parsed while dropping any
entry missing a key or an id, and if neither variant returns 200 the function
raises the fatal discovery error carrying the last status. -/
theorem dc_list_projects_behaviour (srv : String → DCListResp) :
    ((srv "2").status = 200 →
      dc_list_projects srv = .ok (parseProjects (srv "2").body))
    ∧ ((srv "2").status ≠ 200 → (srv "3").status = 200 →
      dc_list_projects srv = .ok (parseProjects (srv "3").body))
    ∧ ((srv "2").status ≠ 200 → (srv "3").status ≠ 200 →
      dc_list_projects srv = .fatal (srv "3").status)
    ∧ (∀ ps p, (p.key = none ∨ p.key = some "" ∨ p.id = none ∨ p.id = some "") →
      parseProjects (p :: ps) = parseProjects ps) := by
  refine ⟨?_, ?_, ?_, ?_⟩
  · intro h; simp [dc_list_projects, h]
  · intro h h3; simp [dc_list_projects, h, h3]
  · intro h h3; simp [dc_list_projects, h, h3]
  · intro ps p hp
    rcases hp with h | h | h | h <;> simp [parseProjects, h] <;>
      (cases p.key <;> rfl)

/-- Splitting a list at the length of a `take` restores it, whether or not
the take was cut short. -/
theorem take_drop_restore (l : List String) (n : Nat) :
    l.take n ++ l.drop (l.take n).length = l := by
  rw [List.length_take]
  by_cases h : n ≤ l.length
  · rw [Nat.min_eq_left h, List.take_append_drop]
  · have hlen : l.length ≤ n := Nat.le_of_not_le h
    rw [Nat.min_eq_right hlen, List.take_of_length_le hlen, List.drop_length,
      List.append_nil]

/-- On a well-formed feed the search loop returns the whole remaining suffix
once it has fuel for the pages left. -/
theorem dcSearchAux_listFeed (ks : List String) (psz : Nat) (hpsz : 0 < psz) :
    ∀ fuel startAt acc, ks.length ≤ startAt + fuel →
      dcSearchAux (listFeed ks psz) (fuel + 1) startAt acc
        = .ok (acc ++ ks.drop startAt) := by
  intro fuel
  induction fuel with
  | zero =>
    intro startAt acc hT
    have hdrop : ks.drop startAt = [] :=
      List.drop_eq_nil_iff.mpr (by simpa using hT)
    rw [dcSearchAux]
    simp [listFeed, hdrop]
  | succ m ih =>
    intro startAt acc hT
    by_cases hend : ks.length ≤ startAt
    · have hdrop : ks.drop startAt = [] := List.drop_eq_nil_iff.mpr hend
      rw [dcSearchAux]
      simp [listFeed, hdrop]
    · have hlt : startAt < ks.length := Nat.lt_of_not_le hend
      have hne : ks.drop startAt ≠ [] := by
        rw [Ne, List.drop_eq_nil_iff]; omega
      have hissues : (ks.drop startAt).take psz ≠ [] := by
        intro hcontra
        rcases List.take_eq_nil_iff.mp hcontra with h0 | hnil
        · omega
        · exact hne hnil
      have hpos : 0 < ((ks.drop startAt).take psz).length :=
        List.length_pos.mpr hissues
      by_cases hstop : ks.length ≤ startAt + ((ks.drop startAt).take psz).length
      · have hTlen : ((ks.drop startAt).take psz).length
            = min psz (ks.length - startAt) := by
          rw [List.length_take, List.length_drop]
        have hple : ks.length - startAt ≤ psz := by
          rcases Nat.le_total psz (ks.length - startAt) with h | h
          · rw [hTlen, Nat.min_eq_left h] at hstop; omega
          · exact h
        have htake : (ks.drop startAt).take psz = ks.drop startAt :=
          List.take_of_length_le (by rw [List.length_drop]; exact hple)
        have harith : ks.length ≤ startAt + (ks.length - startAt) := by omega
        rw [dcSearchAux]
        simp [listFeed, hissues, hstop, htake, hend, harith]
      · have hrec := ih (startAt + ((ks.drop startAt).take psz).length)
          (acc ++ (ks.drop startAt).take psz) (by omega)
        have hjoin : ((ks.drop startAt).take psz)
            ++ ks.drop (startAt + ((ks.drop startAt).take psz).length)
            = ks.drop startAt := by
          rw [← List.drop_drop]
          exact take_drop_restore (ks.drop startAt) psz
        rw [dcSearchAux]
        simp only [listFeed]
        rw [if_neg (by simp)]
        rw [if_neg (by simp [hissues])]
        rw [if_neg (by simpa using hstop)]
        rw [hrec, List.append_assoc, hjoin]

/-- C8: the source issue-key search pages by offset and page size until the
offset reaches the reported total: on a feed reporting `total = 5` served in
pages of size 2 it terminates (at any fuel from 3 up) returning exactly the
5 distinct issue keys, without duplicates; and on every well-formed feed over
any key list, with any positive page size, it terminates with exactly that
key list once the fuel exceeds the number of keys. -/
theorem dc_search_pagination_total5 (n : Nat) :
    dc_search_issue_keys feed5 (n + 3) = .ok feedKeys
    ∧ feedKeys.Nodup ∧ feedKeys.length = 5
    ∧ ∀ (ks : List String) (psz m : Nat), 0 < psz → ks.length ≤ m →
      dc_search_issue_keys (listFeed ks psz) (m + 1) = .ok ks := by
  refine ⟨?_, by decide, by decide, ?_⟩
  case refine_2 =>
    intro ks psz m hpsz hm
    have h := dcSearchAux_listFeed ks psz hpsz m 0 [] (by omega)
    simpa [dc_search_issue_keys] using h
  show dcSearchAux feed5 (n + 2 + 1) 0 [] = .ok feedKeys
  rw [dcSearchAux]
  norm_num [feed5, feedKeys]
  show dcSearchAux feed5 (n + 1 + 1) 2 ["A-1", "A-2"] = .ok feedKeys
  rw [dcSearchAux]
  norm_num [feed5, feedKeys]
  show dcSearchAux feed5 (n + 0 + 1) 4 ["A-1", "A-2", "A-3", "A-4"] = .ok feedKeys
  rw [dcSearchAux]
  norm_num [feed5, feedKeys]

/-- C4 counterexample: a server whose pages carry `total = 1` but no items
stalls `cloud_fetch_status_pairs` forever — the empty-page terminal condition
is only consulted when `total` is absent, so the pagination loop does not
terminate for every page sequence. -/
theorem pair_fetch_total_stall_diverges : fetchDiverges totalStallSrv := by
  intro fuel
  show cloudFetchAux totalStallSrv fuel 0 ∅ = .diverge
  exact totalStall_aux fuel ∅

/-- C4 (amended): `cloud_fetch_status_pairs` terminates when the pages are
well-formed — when every page reports the same `total` counter and carries at
least one history while the offset is below it, and, with `total` absent,
already at the first page when it is flagged last (or the flag is missing) or
has zero items; in particular a zero-item page that is not flagged last is
terminal when `total` is absent.  (A zero-item page with a present, unreached
`total` instead loops forever.) -/
theorem pair_fetch_termination (srv : Nat → CLPage) (T fuel : Nat) :
    ((∀ s, (srv s).status = 200) → (∀ s, (srv s).total = some T) →
      (∀ s, s < T → pageHistories (srv s) ≠ []) → T ≤ fuel →
      ∃ ps, cloud_fetch_status_pairs srv (fuel + 1) = .ok ps)
    ∧ ((srv 0).status = 200 → (srv 0).total = none →
      ((pageHistories (srv 0)).isEmpty || (srv 0).isLast.getD true) = true →
      ∃ ps, cloud_fetch_status_pairs srv (fuel + 1) = .ok ps) := by
  constructor
  · intro h200 htot hne hTf
    obtain ⟨ps, hps⟩ := cloudFetchAux_total_term srv T h200 htot hne fuel 0 ∅
      (by simpa using hTf)
    exact ⟨ps, hps⟩
  · intro h200 htot hlast
    refine ⟨pagePairs (pageHistories (srv 0)) ∅, ?_⟩
    show cloudFetchAux srv (fuel + 1) 0 ∅ = _
    rw [cloudFetchAux_step srv fuel 0 ∅ h200, htot]
    simp [hlast]

/-- C10: a 200 changelog page carrying neither a `total` counter nor an
`isLast` flag is treated as the last page (`isLast` defaults to true): the
loop returns right after processing it, even when the page is non-empty, and
the result is therefore independent of whatever the server would return at
any later offset. -/
theorem changelog_page_without_total_is_last
    (srv srv2 : Nat → CLPage) (fuel startAt : Nat) (acc : Finset StatusPair) :
    ((srv startAt).status = 200 → (srv startAt).total = none →
      (srv startAt).isLast = none →
      cloudFetchAux srv (fuel + 1) startAt acc
        = .ok (pagePairs (pageHistories (srv startAt)) acc))
    ∧ ((srv 0).status = 200 → (srv 0).total = none → (srv 0).isLast = none →
      cloud_fetch_status_pairs srv (fuel + 1)
        = .ok (pagePairs (pageHistories (srv 0)) ∅))
    ∧ (srv2 startAt = srv startAt →
      (srv startAt).status = 200 → (srv startAt).total = none →
      (srv startAt).isLast = none →
      cloudFetchAux srv2 (fuel + 1) startAt acc
        = cloudFetchAux srv (fuel + 1) startAt acc) := by
  have key : ∀ (sv : Nat → CLPage) (sa : Nat) (ac : Finset StatusPair),
      (sv sa).status = 200 → (sv sa).total = none → (sv sa).isLast = none →
      cloudFetchAux sv (fuel + 1) sa ac
        = .ok (pagePairs (pageHistories (sv sa)) ac) := by
    intro sv sa ac h200 htot hlast
    rw [cloudFetchAux_step sv fuel sa ac h200, htot]
    simp [hlast]
  refine ⟨key srv startAt acc, ?_, ?_⟩
  · intro h200 htot hlast
    show cloudFetchAux srv (fuel + 1) 0 ∅ = _
    exact key srv 0 ∅ h200 htot hlast
  · intro heq h200 htot hlast
    rw [key srv2 startAt acc (by rw [heq]; exact h200) (by rw [heq]; exact htot)
        (by rw [heq]; exact hlast), key srv startAt acc h200 htot hlast, heq]

/-- Concrete check of the C10 behaviour: on `twoPageSrv` only the first
page's pair is collected. -/
theorem sanity_twoPageSrv :
    cloud_fetch_status_pairs twoPageSrv 5
      = .ok {(some "Open", some "Done")} := by decide

/-! ### Lemmas about the comparison loop -/

/-- Every row the comparator emits for issue `k` carries `k` as its issue
key. -/
theorem mem_issueRows_issueKey (env : Env) (k : String) (es : List DCChange)
    (r : DriftRow) (h : r ∈ issueRows env k es) : r.issueKey = k := by
  unfold issueRows at h
  cases hc : cloudCacheOf env k with
  | none => rw [hc] at h; cases h
  | some P =>
    rw [hc] at h
    rcases List.mem_filterMap.mp h with ⟨c, _, heq⟩
    by_cases hp : (c.fromName, c.toName) ∈ P
    · rw [if_pos hp] at heq; cases heq
    · rw [if_neg hp] at heq
      injection heq with h1
      subst h1
      rfl

theorem issueRows_filter_ne (env : Env) (j k : String) (hne : j ≠ k)
    (es : List DCChange) :
    (issueRows env j es).filter (fun r => r.issueKey != k)
      = issueRows env j es := by
  apply List.filter_eq_self.mpr
  intro r hr
  show (r.issueKey != k) = true
  rw [mem_issueRows_issueKey env j es r hr]
  exact bne_iff_ne.mpr hne

theorem issueRows_filter_self_nil (env : Env) (k : String)
    (es : List DCChange) :
    (issueRows env k es).filter (fun r => r.issueKey != k) = [] := by
  apply List.filter_eq_nil_iff.mpr
  intro r hr
  show ¬(r.issueKey != k) = true
  rw [mem_issueRows_issueKey env k es r hr]
  simp

theorem compareRows_cons (env : Env) (k : String) (es : List DCChange)
    (rest : List (String × List DCChange)) :
    compareRows env ((k, es) :: rest)
      = issueRows env k es ++ compareRows env rest := rfl

/-- When an environment change silences issue `k` and leaves every other
issue's rows unchanged, the comparison of any dict loses exactly the rows
keyed `k`. -/
theorem compareRows_killed (env env' : Env) (k : String)
    (hothers : ∀ j es, j ≠ k → issueRows env' j es = issueRows env j es)
    (hk : ∀ es, issueRows env' k es = []) :
    ∀ dict, compareRows env' dict
      = (compareRows env dict).filter (fun r => r.issueKey != k) := by
  intro dict
  induction dict with
  | nil => rfl
  | cons p rest ih =>
    obtain ⟨j, es⟩ := p
    rw [compareRows_cons, compareRows_cons, List.filter_append, ih]
    by_cases hj : j = k
    · rw [hj, hk es, issueRows_filter_self_nil env k es]
    · rw [hothers j es hj, issueRows_filter_ne env j k hj es]

/-- When the dict itself loses its `k` entries and every other issue's rows
are unchanged, the comparison again loses exactly the rows keyed `k`. -/
theorem compareRows_filter_dict (env env' : Env) (k : String)
    (hothers : ∀ j es, j ≠ k → issueRows env' j es = issueRows env j es) :
    ∀ dict, compareRows env' (dict.filter (fun p => p.1 != k))
      = (compareRows env dict).filter (fun r => r.issueKey != k) := by
  intro dict
  induction dict with
  | nil => rfl
  | cons p rest ih =>
    obtain ⟨j, es⟩ := p
    by_cases hj : j = k
    · have hdrop : ((j, es) :: rest).filter (fun p => p.1 != k)
          = rest.filter (fun p => p.1 != k) := by simp [hj]
      rw [hdrop, ih, compareRows_cons, List.filter_append, hj,
        issueRows_filter_self_nil env k es, List.nil_append]
    · have hkeep : ((j, es) :: rest).filter (fun p => p.1 != k)
          = (j, es) :: rest.filter (fun p => p.1 != k) := by simp [hj]
      rw [hkeep, compareRows_cons, compareRows_cons, List.filter_append, ih,
        hothers j es hj, issueRows_filter_ne env j k hj es]

/-- Rows emitted by the comparator all key an issue whose `issueRows` is
non-trivial: if issue `k` is silenced, no row carries key `k`. -/
theorem compareRows_no_k (env : Env) (k : String)
    (hk : ∀ es, issueRows env k es = []) :
    ∀ dict (r : DriftRow), r ∈ compareRows env dict → r.issueKey ≠ k := by
  intro dict
  induction dict with
  | nil => intro r hr; cases hr
  | cons p rest ih =>
    intro r hr
    obtain ⟨j, es⟩ := p
    rw [compareRows_cons] at hr
    rcases List.mem_append.mp hr with h | h
    · have hkey := mem_issueRows_issueKey env j es r h
      intro hck
      have hjk : j = k := by rw [← hkey, hck]
      rw [hjk, hk es] at h
      cases h
    · exact ih r h

/-! ### Lemmas about the transition dict -/

theorem filter_map_update (k j : String) (ts : List DCChange)
    (acc : List (String × List DCChange)) :
    ((acc.map fun p => if p.1 = j then (p.1, p.2 ++ ts) else p).filter
        (fun p => p.1 != k))
      = (acc.filter (fun p => p.1 != k)).map
          (fun p => if p.1 = j then (p.1, p.2 ++ ts) else p) := by
  induction acc with
  | nil => rfl
  | cons p rest ih =>
    obtain ⟨a, b⟩ := p
    by_cases haj : a = j
    · subst haj
      by_cases hak : a = k
      · subst hak
        simp [ih]
      · simp [hak, ih]
    · by_cases hak : a = k
      · subst hak
        simp [haj, ih]
      · simp [haj, hak, ih]

theorem hasKey_filter_ne (k j : String) (hne : j ≠ k)
    (acc : List (String × List DCChange)) :
    hasKey (acc.filter (fun p => p.1 != k)) j = hasKey acc j := by
  induction acc with
  | nil => rfl
  | cons p rest ih =>
    obtain ⟨a, b⟩ := p
    by_cases ha : a = k
    · rw [List.filter_cons_of_neg (by simp [ha]), ih]
      have hbeq : (a == j) = false := by
        rw [ha]; exact beq_eq_false_iff_ne.mpr (Ne.symm hne)
      show hasKey rest j = ((a == j) || hasKey rest j)
      rw [hbeq, Bool.false_or]
    · rw [List.filter_cons_of_pos (by simp [ha])]
      show ((a == j) || hasKey (rest.filter (fun p => p.1 != k)) j)
          = ((a == j) || hasKey rest j)
      rw [ih]

/-- Appending under key `k` is invisible after filtering `k` away. -/
theorem filter_dictAppend_self (k : String) (ts : List DCChange)
    (acc : List (String × List DCChange)) :
    (dictAppend acc k ts).filter (fun p => p.1 != k)
      = acc.filter (fun p => p.1 != k) := by
  unfold dictAppend
  by_cases h : hasKey acc k = true
  · rw [if_pos h, filter_map_update k k ts acc]
    have hid : ∀ l : List (String × List DCChange),
        (∀ x ∈ l, (x.1 != k) = true) →
        l.map (fun p => if p.1 = k then (p.1, p.2 ++ ts) else p) = l := by
      intro l
      induction l with
      | nil => intro _; rfl
      | cons x xs ihl =>
        intro hx
        have hxk : ¬x.1 = k := bne_iff_ne.mp (hx x (List.mem_cons_self x xs))
        rw [List.map_cons, if_neg hxk,
          ihl (fun y hy => hx y (List.mem_cons_of_mem x hy))]
    exact hid (acc.filter fun p => p.1 != k)
      (fun x hx => (List.mem_filter.mp hx).2)
  · rw [if_neg h]
    simp

/-- Appending under a key other than `k` commutes with filtering `k` away. -/
theorem dictAppend_filter_comm (k j : String) (hne : j ≠ k)
    (ts : List DCChange) (acc : List (String × List DCChange)) :
    dictAppend (acc.filter (fun p => p.1 != k)) j ts
      = (dictAppend acc j ts).filter (fun p => p.1 != k) := by
  unfold dictAppend
  rw [hasKey_filter_ne k j hne acc]
  by_cases h : hasKey acc j = true
  · rw [if_pos h, if_pos h, filter_map_update k j ts acc]
  · rw [if_neg h, if_neg h, List.filter_append]
    have hone : ([(j, ts)] : List (String × List DCChange)).filter
        (fun p => p.1 != k) = [(j, ts)] := by simp [hne]
    rw [hone]

/-- One unfolding of the DC-changelog loop on a raising fetch. -/
theorem buildDCDictAux_cons_error (env : Env) (j : String) (rest : List String)
    (acc : List (String × List DCChange)) (h : env.dcChanges j = .error ()) :
    buildDCDictAux env (j :: rest) acc = buildDCDictAux env rest acc := by
  conv_lhs => rw [buildDCDictAux]
  rw [h]

/-- One unfolding of the DC-changelog loop on a successful fetch. -/
theorem buildDCDictAux_cons_ok (env : Env) (j : String) (rest : List String)
    (acc : List (String × List DCChange)) (cs : List DCChange)
    (h : env.dcChanges j = .ok cs) :
    buildDCDictAux env (j :: rest) acc
      = if (cs.filter keepChange).isEmpty then buildDCDictAux env rest acc
        else buildDCDictAux env rest (dictAppend acc j (cs.filter keepChange)) := by
  conv_lhs => rw [buildDCDictAux]
  rw [h]

/-- Making the DC fetch for `k` raise removes exactly the `k` entries of the
transition dict. -/
theorem buildDCDictAux_setDCError (env : Env) (k : String) :
    ∀ keys (acc : List (String × List DCChange)),
      buildDCDictAux (setDCError env k) keys (acc.filter (fun p => p.1 != k))
        = (buildDCDictAux env keys acc).filter (fun p => p.1 != k) := by
  intro keys
  induction keys with
  | nil => intro acc; rfl
  | cons j rest ih =>
    intro acc
    by_cases hj : j = k
    · have hdc : (setDCError env k).dcChanges j = .error () := by
        simp [setDCError, hj]
      rw [buildDCDictAux_cons_error (setDCError env k) j rest _ hdc]
      cases he : env.dcChanges j with
      | error u =>
        rw [buildDCDictAux_cons_error env j rest acc (by rw [he])]
        exact ih acc
      | ok cs =>
        rw [buildDCDictAux_cons_ok env j rest acc cs he]
        by_cases hkept : (cs.filter keepChange).isEmpty = true
        · rw [if_pos hkept]; exact ih acc
        · rw [if_neg hkept, ← ih (dictAppend acc j (cs.filter keepChange)), hj,
            filter_dictAppend_self k (cs.filter keepChange) acc]
    · have hdc : (setDCError env k).dcChanges j = env.dcChanges j := by
        simp [setDCError, hj]
      cases he : env.dcChanges j with
      | error u =>
        rw [buildDCDictAux_cons_error (setDCError env k) j rest _ (by rw [hdc, he]),
          buildDCDictAux_cons_error env j rest acc (by rw [he])]
        exact ih acc
      | ok cs =>
        rw [buildDCDictAux_cons_ok (setDCError env k) j rest _ cs (by rw [hdc, he]),
          buildDCDictAux_cons_ok env j rest acc cs he]
        by_cases hkept : (cs.filter keepChange).isEmpty = true
        · rw [if_pos hkept, if_pos hkept]; exact ih acc
        · rw [if_neg hkept, if_neg hkept,
            dictAppend_filter_comm k j hj (cs.filter keepChange) acc]
          exact ih (dictAppend acc j (cs.filter keepChange))

theorem buildDCDict_setDCError (env : Env) (k : String) (keys : List String) :
    buildDCDict (setDCError env k) keys
      = (buildDCDict env keys).filter (fun p => p.1 != k) := by
  have h := buildDCDictAux_setDCError env k keys []
  simpa [buildDCDict] using h

/-- Making the Cloud fetch for `k` raise leaves the DC transition dict
untouched. -/
theorem buildDCDictAux_setCloudError (env : Env) (k : String) :
    ∀ keys (acc : List (String × List DCChange)),
      buildDCDictAux (setCloudError env k) keys acc
        = buildDCDictAux env keys acc := by
  intro keys
  induction keys with
  | nil => intro acc; rfl
  | cons j rest ih =>
    intro acc
    cases he : env.dcChanges j with
    | error u =>
      rw [buildDCDictAux_cons_error (setCloudError env k) j rest acc (by rw [show (setCloudError env k).dcChanges j = env.dcChanges j from rfl, he]),
        buildDCDictAux_cons_error env j rest acc (by rw [he])]
      exact ih acc
    | ok cs =>
      rw [buildDCDictAux_cons_ok (setCloudError env k) j rest acc cs (by rw [show (setCloudError env k).dcChanges j = env.dcChanges j from rfl, he]),
        buildDCDictAux_cons_ok env j rest acc cs he]
      by_cases hkept : (cs.filter keepChange).isEmpty = true
      · rw [if_pos hkept, if_pos hkept]; exact ih acc
      · rw [if_neg hkept, if_neg hkept]; exact ih _

/-! ### Environment-invariance lemmas -/

theorem issueRows_none (env : Env) (k : String) (es : List DCChange)
    (h : cloudCacheOf env k = none) : issueRows env k es = [] := by
  unfold issueRows
  rw [h]

theorem issueRows_some (env : Env) (k : String) (es : List DCChange)
    (P : Finset StatusPair) (h : cloudCacheOf env k = some P) :
    issueRows env k es
      = es.filterMap fun c =>
          if (c.fromName, c.toName) ∈ P then none else some (rowOf env k c) := by
  unfold issueRows
  rw [h]

theorem dcIssueIdOf_setDCError (env : Env) (k j : String) (hne : j ≠ k) :
    dcIssueIdOf (setDCError env k) j = dcIssueIdOf env j := by
  unfold dcIssueIdOf
  have hdc : (setDCError env k).dcChanges j = env.dcChanges j := by
    simp [setDCError, hne]
  rw [hdc]

theorem rowOf_setDCError (env : Env) (k j : String) (hne : j ≠ k)
    (c : DCChange) :
    rowOf (setDCError env k) j c = rowOf env j c := by
  unfold rowOf
  rw [dcIssueIdOf_setDCError env k j hne]
  rfl

theorem issueRows_setDCError (env : Env) (k j : String) (hne : j ≠ k)
    (es : List DCChange) :
    issueRows (setDCError env k) j es = issueRows env j es := by
  have hcache : cloudCacheOf (setDCError env k) j = cloudCacheOf env j := rfl
  cases hc : cloudCacheOf env j with
  | none =>
    rw [issueRows_none _ _ es (by rw [hcache, hc]), issueRows_none _ _ es hc]
  | some P =>
    rw [issueRows_some _ _ es P (by rw [hcache, hc]),
      issueRows_some _ _ es P hc]
    congr 1
    funext c
    by_cases hp : (c.fromName, c.toName) ∈ P
    · simp [hp]
    · simp [hp, rowOf_setDCError env k j hne c]

theorem cloudCacheOf_setCloudError_ne (env : Env) (k j : String)
    (hne : j ≠ k) :
    cloudCacheOf (setCloudError env k) j = cloudCacheOf env j := by
  unfold cloudCacheOf
  have hcp : (setCloudError env k).cloudPairs j = env.cloudPairs j := by
    simp [setCloudError, hne]
  rw [hcp]
  rfl

theorem rowOf_setCloudError (env : Env) (k j : String) (hne : j ≠ k)
    (c : DCChange) :
    rowOf (setCloudError env k) j c = rowOf env j c := by
  have hid : cloudIdOf (setCloudError env k) j = cloudIdOf env j := by
    unfold cloudIdOf
    have hcp : (setCloudError env k).cloudPairs j = env.cloudPairs j := by
      simp [setCloudError, hne]
    rw [hcp]
    rfl
  unfold rowOf
  rw [hid]
  rfl

theorem issueRows_setCloudError_ne (env : Env) (k j : String) (hne : j ≠ k)
    (es : List DCChange) :
    issueRows (setCloudError env k) j es = issueRows env j es := by
  have hcache := cloudCacheOf_setCloudError_ne env k j hne
  cases hc : cloudCacheOf env j with
  | none =>
    rw [issueRows_none _ _ es (by rw [hcache, hc]), issueRows_none _ _ es hc]
  | some P =>
    rw [issueRows_some _ _ es P (by rw [hcache, hc]),
      issueRows_some _ _ es P hc]
    congr 1
    funext c
    by_cases hp : (c.fromName, c.toName) ∈ P
    · simp [hp]
    · simp [hp, rowOf_setCloudError env k j hne c]

theorem issueRows_setCloudError_self (env : Env) (k : String)
    (es : List DCChange) :
    issueRows (setCloudError env k) k es = [] := by
  simp [issueRows, cloudCacheOf, setCloudError]

/-- A Cloud failure for issue `k` (either call) empties its cache entry, so
its comparison yields no rows. -/
theorem issueRows_of_cloudFail (env : Env) (k : String)
    (hfail : env.cloudPairs k = .error () ∨ env.cloudIssueId k = .error ())
    (es : List DCChange) :
    issueRows env k es = [] := by
  rcases hfail with h | h
  · simp [issueRows, cloudCacheOf, h]
  · cases hp : env.cloudPairs k with
    | error u => simp [issueRows, cloudCacheOf, hp]
    | ok P => simp [issueRows, cloudCacheOf, hp, h]

theorem process_project_absent (env : Env) (pk pid : String)
    (hex : cloud_project_exists env.cloudProjectLookup pk pid = false) :
    process_project env pk pid = [] := by
  unfold process_project
  rw [hex]
  rfl

theorem process_project_searchError (env : Env) (pk pid : String)
    (hs : env.searchResult = .error ()) :
    process_project env pk pid = [] := by
  unfold process_project
  by_cases hex : cloud_project_exists env.cloudProjectLookup pk pid = true
  · rw [if_pos hex, hs]
  · rw [if_neg hex]

theorem process_project_ok (env : Env) (pk pid : String) (keys : List String)
    (hex : cloud_project_exists env.cloudProjectLookup pk pid = true)
    (hs : env.searchResult = .ok keys) :
    process_project env pk pid =
      if keys.isEmpty then []
      else if (buildDCDict env keys).isEmpty then []
      else compareRows env (buildDCDict env keys) := by
  unfold process_project
  rw [if_pos hex, hs]

/-- All the early-return branches of `process_project` write the same rows as
the general compare-everything formula. -/
theorem process_project_eq (env : Env) (pk pid : String) :
    process_project env pk pid =
      if cloud_project_exists env.cloudProjectLookup pk pid then
        match env.searchResult with
        | .error _ => []
        | .ok keys => compareRows env (buildDCDict env keys)
      else [] := by
  by_cases hex : cloud_project_exists env.cloudProjectLookup pk pid = true
  · rw [if_pos hex]
    cases hs : env.searchResult with
    | error u =>
      rw [process_project_searchError env pk pid (by rw [hs])]
    | ok keys =>
      rw [process_project_ok env pk pid keys hex hs]
      by_cases hk : keys.isEmpty = true
      · rw [if_pos hk]
        have hnil : keys = [] := List.isEmpty_iff.mp hk
        subst hnil
        rfl
      · rw [if_neg hk]
        by_cases hd : (buildDCDict env keys).isEmpty = true
        · rw [if_pos hd]
          have hnil : buildDCDict env keys = [] := List.isEmpty_iff.mp hd
          show ([] : List DriftRow) = compareRows env (buildDCDict env keys)
          rw [hnil]
          rfl
        · rw [if_neg hd]
  · have hex2 : cloud_project_exists env.cloudProjectLookup pk pid = false :=
      Bool.eq_false_iff.mpr hex
    rw [if_neg hex, process_project_absent env pk pid hex2]

/-- C1: an issue whose target-side fetch (`cloud_fetch_status_pairs` or
`cloud_get_issue_id`) raised contributes zero DriftRows to the project's
report, whatever its source-side transitions: no row of the written report
carries that issue's key. -/
theorem target_fetch_failure_no_rows (env : Env) (pk pid k : String)
    (hfail : env.cloudPairs k = .error () ∨ env.cloudIssueId k = .error ()) :
    ((process_project env pk pid).all fun r => r.issueKey != k) = true := by
  rw [process_project_eq]
  by_cases hex : cloud_project_exists env.cloudProjectLookup pk pid = true
  · rw [if_pos hex]
    cases hs : env.searchResult with
    | error u => rfl
    | ok keys =>
      show ((compareRows env (buildDCDict env keys)).all
        fun r => r.issueKey != k) = true
      rw [List.all_eq_true]
      intro r hr
      exact bne_iff_ne.mpr
        (compareRows_no_k env k (issueRows_of_cloudFail env k hfail)
          (buildDCDict env keys) r hr)
  · rw [if_neg hex]
    rfl

theorem target_fetch_failure_no_rows_witness :
    ((process_project envC1 "PRJ" "10001").all fun r => r.issueKey != "K-1")
      = true :=
  target_fetch_failure_no_rows envC1 "PRJ" "10001" "K-1" (Or.inl rfl)

/-- C2 counterexample: for issue K-1 the target pair fetch succeeds (with an
empty pair set) and the source records one transition whose name pair is
missing from that set, yet zero DriftRows are emitted, because the subsequent
`cloud_get_issue_id` raises and overwrites the cache entry with `None` —
pair-fetch success alone does not guarantee the claimed row. -/
theorem pair_fetch_success_alone_yields_no_row :
    envC2cx.cloudPairs "K-1" = .ok (∅ : Finset StatusPair)
    ∧ (changeOpenDone.fromName, changeOpenDone.toName) ∉ (∅ : Finset StatusPair)
    ∧ buildDCDict envC2cx ["K-1"] = [("K-1", [changeOpenDone])]
    ∧ process_project envC2cx "PRJ" "10001" = [] := by
  exact ⟨rfl, by decide, by decide, by decide⟩

/-- C2 (amended): for every issue whose target pair-fetch *and* issue-id
fetch both succeeded, the comparator emits exactly one DriftRow per
transition whose (from-name, to-name) pair is not in the issue's pair set and
none for a transition whose pair is present; the verdict is a function of the
status names only — transitions listing the same names produce the same
number of rows whatever their ids. -/
theorem comparator_rows_exact (env : Env) (k : String)
    (entries : List DCChange) (P : Finset StatusPair) (i : String)
    (hP : env.cloudPairs k = .ok P) (hi : env.cloudIssueId k = .ok i) :
    issueRows env k entries
      = (entries.filter fun c => decide ((c.fromName, c.toName) ∉ P)).map
          (rowOf env k)
    ∧ ∀ entries' : List DCChange,
      entries.map changeNames = entries'.map changeNames →
      (issueRows env k entries).length = (issueRows env k entries').length := by
  have hcache : cloudCacheOf env k = some P := by
    simp [cloudCacheOf, hP, hi]
  have main : ∀ l : List DCChange,
      issueRows env k l
        = (l.filter fun c => decide ((c.fromName, c.toName) ∉ P)).map
            (rowOf env k) := by
    intro l
    rw [issueRows_some env k l P hcache]
    induction l with
    | nil => rfl
    | cons c cs ih =>
      by_cases hp : (c.fromName, c.toName) ∈ P
      · simp [hp, ih]
      · simp [hp, ih]
  have hlen : ∀ l : List DCChange,
      (l.filter fun c => decide ((c.fromName, c.toName) ∉ P)).length
        = ((l.map changeNames).countP fun pr => decide (pr ∉ P)) := by
    intro l
    rw [List.countP_map, ← List.countP_eq_length_filter]
    rfl
  refine ⟨main entries, ?_⟩
  intro entries' hnames
  rw [main entries, main entries', List.length_map, List.length_map,
    hlen entries, hlen entries', hnames]

theorem comparator_rows_exact_witness :
    issueRows envC2w "K-1" entriesW
      = (entriesW.filter fun c => decide ((c.fromName, c.toName) ∉ pairsW)).map
          (rowOf envC2w "K-1") :=
  (comparator_rows_exact envC2w "K-1" entriesW pairsW "700" rfl rfl).1

/-- C3: two-tier failure isolation.  Making the DC changelog fetch or the
Cloud fetch of one issue raise removes exactly that issue's rows from the
project report, leaving every other issue's rows untouched; an exception
escaping the orchestration (the issue-key search raising) forces the whole
report to empty-with-headers; and the per-project loop always continues to
the remaining projects. -/
theorem two_tier_failure_isolation (env : Env) (pk pid k : String)
    (envOf : Project → Env) (p : Project) (rest : List Project) :
    process_project (setDCError env k) pk pid
      = (process_project env pk pid).filter (fun r => r.issueKey != k)
    ∧ process_project (setCloudError env k) pk pid
      = (process_project env pk pid).filter (fun r => r.issueKey != k)
    ∧ process_project (setSearchError env) pk pid = []
    ∧ runProjects envOf (p :: rest)
      = (p.key, process_project (envOf p) p.key p.id) :: runProjects envOf rest := by
  refine ⟨?_, ?_, ?_, rfl⟩
  · rw [process_project_eq, process_project_eq]
    have hlook : (setDCError env k).cloudProjectLookup = env.cloudProjectLookup :=
      rfl
    have hsearch : (setDCError env k).searchResult = env.searchResult := rfl
    rw [hlook, hsearch]
    by_cases hex : cloud_project_exists env.cloudProjectLookup pk pid = true
    · rw [if_pos hex, if_pos hex]
      cases hs : env.searchResult with
      | error u => rfl
      | ok keys =>
        show compareRows (setDCError env k) (buildDCDict (setDCError env k) keys)
          = (compareRows env (buildDCDict env keys)).filter
              (fun r => r.issueKey != k)
        rw [buildDCDict_setDCError env k keys]
        exact compareRows_filter_dict env (setDCError env k) k
          (fun j es hj => issueRows_setDCError env k j hj es)
          (buildDCDict env keys)
    · rw [if_neg hex, if_neg hex]
      rfl
  · rw [process_project_eq, process_project_eq]
    have hlook : (setCloudError env k).cloudProjectLookup = env.cloudProjectLookup :=
      rfl
    have hsearch : (setCloudError env k).searchResult = env.searchResult := rfl
    rw [hlook, hsearch]
    by_cases hex : cloud_project_exists env.cloudProjectLookup pk pid = true
    · rw [if_pos hex, if_pos hex]
      cases hs : env.searchResult with
      | error u => rfl
      | ok keys =>
        show compareRows (setCloudError env k) (buildDCDict (setCloudError env k) keys)
          = (compareRows env (buildDCDict env keys)).filter
              (fun r => r.issueKey != k)
        rw [show buildDCDict (setCloudError env k) keys = buildDCDict env keys
          from buildDCDictAux_setCloudError env k keys []]
        exact compareRows_killed env (setCloudError env k) k
          (fun j es hj => issueRows_setCloudError_ne env k j hj es)
          (fun es => issueRows_setCloudError_self env k es)
          (buildDCDict env keys)
    · rw [if_neg hex, if_neg hex]
      rfl
  · exact process_project_searchError (setSearchError env) pk pid rfl

/-- Concrete end-to-end check: with one recorded and one missing transition,
the report holds exactly the row for the missing one, with all its display
fields. -/
theorem sanity_process_project :
    process_project envC2w "PRJ" "10001"
      = [{ issueKey := "K-1", dc_issue_id := "500", cloud_issue_id := "700"
           transition := "Open → In Progress", from_status := "Open (1)"
           to_status := "In Progress (3)", author := "Alice"
           timestamp := "2024-01-02T00:00:00", changegroup_Id := "901"
           changeitem_Id := "901" }] := by decide

/-! ### Resume-point lemmas -/

/-- With case-insensitively distinct keys, scanning for the `k`-th project's
key finds exactly index `k`. -/
theorem findResume_get (l : List Project) :
    ∀ (k : Nat) (hk : k < l.length),
      ((l.map fun p => (pyUpper p.key)).Nodup) →
      findResume ((pyUpper (l.get ⟨k, hk⟩).key)) l = some k := by
  induction l with
  | nil => intro k hk; exact absurd hk (Nat.not_lt_zero k)
  | cons p rest ih =>
    intro k hk hnodup
    rw [List.map_cons, List.nodup_cons] at hnodup
    cases k with
    | zero =>
      show findResume ((pyUpper p.key)) (p :: rest) = some 0
      rw [findResume, if_pos rfl]
    | succ n =>
      have hn : n < rest.length := Nat.lt_of_succ_lt_succ hk
      have hmem : rest.get ⟨n, hn⟩ ∈ rest := List.get_mem rest n hn
      have hne : (pyUpper p.key) ≠ (pyUpper (rest.get ⟨n, hn⟩).key) := by
        intro hcontra
        exact hnodup.1
          (hcontra ▸ List.mem_map_of_mem (fun q => (pyUpper q.key)) hmem)
      show findResume ((pyUpper (rest.get ⟨n, hn⟩).key)) (p :: rest) = some (n + 1)
      rw [findResume, if_neg hne, ih n hn hnodup.2]
      rfl

/-- An unmatched resume key scans off the end of the list. -/
theorem findResume_none (rku : String) :
    ∀ l : List Project, (∀ p ∈ l, (pyUpper p.key) ≠ rku) →
      findResume rku l = none := by
  intro l
  induction l with
  | nil => intro _; rfl
  | cons p rest ih =>
    intro h
    rw [findResume, if_neg (h p (List.mem_cons_self p rest)),
      ih fun q hq => h q (List.mem_cons_of_mem p hq)]
    rfl

/-- C9: with case-insensitively unique discovered keys, resuming from the
key of `projects[k]` (matched case-insensitively, inclusive) processes
exactly the suffix `projects[k:]` and yields the same per-project reports as
running on that suffix directly; a resume key matching no project degrades to
processing the whole list from the beginning. -/
theorem resume_suffix_equivalence (envOf : Project → Env)
    (projects : List Project) (k : Nat) (hk : k < projects.length)
    (hnodup : (projects.map fun p => (pyUpper p.key)).Nodup) :
    runFrom envOf projects (some (projects.get ⟨k, hk⟩).key)
      = runFrom envOf (projects.drop k) none
    ∧ ∀ rk : String,
      (projects.all fun p => (pyUpper p.key) != (pyUpper rk)) = true →
      runFrom envOf projects (some rk) = runFrom envOf projects none := by
  constructor
  · show runProjects envOf
        (projects.drop (resumeIndex projects (some (projects.get ⟨k, hk⟩).key)))
      = runProjects envOf ((projects.drop k).drop (resumeIndex (projects.drop k) none))
    have hidx : resumeIndex projects (some (projects.get ⟨k, hk⟩).key) = k := by
      show (findResume ((pyUpper (projects.get ⟨k, hk⟩).key)) projects).getD 0 = k
      rw [findResume_get projects k hk hnodup]
      rfl
    rw [hidx]
    rfl
  · intro rk hall
    show runProjects envOf (projects.drop (resumeIndex projects (some rk)))
      = runProjects envOf (projects.drop (resumeIndex projects none))
    have hidx : resumeIndex projects (some rk) = 0 := by
      show (findResume (pyUpper rk) projects).getD 0 = 0
      rw [findResume_none (pyUpper rk) projects fun p hp =>
        bne_iff_ne.mp (List.all_eq_true.mp hall p hp)]
      rfl
    rw [hidx]
    rfl

theorem resume_suffix_equivalence_witness :
    runFrom envOfW projW (some "BETA") = runFrom envOfW (projW.drop 1) none
    ∧ runFrom envOfW projW (some "DELTA") = runFrom envOfW projW none := by
  constructor
  · exact (resume_suffix_equivalence envOfW projW 1 (by decide) (by decide)).1
  · exact (resume_suffix_equivalence envOfW projW 1 (by decide) (by decide)).2
      "DELTA" (by decide)

end SBSA
